import Mathlib

/-!
Shallow embedding of the wire-level HTTP/1.1 codec (`httpclient/protocol.py`)
and the WebSocket framing layer (`wsproto.py`).

Bytes are modelled as `Nat` values (0..255) and byte strings as `List Nat`.
A stream is the list of bytes that will ever arrive; end of list is EOF.
Fallible operations return `Except`/`Option`.
-/

set_option maxRecDepth 10000

namespace Httpclient

/-- ASCII codes of a Lean string literal (all literals used are ASCII). -/
def strBytes (s : String) : List Nat := s.data.map Char.toNat

/-- Python `bytes` whitespace set (b' \t\n\r\x0b\x0c'), used by `int()` and
`bytes.strip()` with no argument. -/
def isBWs (c : Nat) : Bool := c = 32 || c = 9 || c = 10 || c = 13 || c = 11 || c = 12

/-- Python `str` whitespace inside latin-1 range (`str.strip`, `str.split(None)`):
0x09-0x0D, 0x1C-0x1F, 0x20, 0x85, 0xA0. -/
def isSWs (c : Nat) : Bool :=
  (9 ≤ c && c ≤ 13) || (28 ≤ c && c ≤ 31) || c = 32 || c = 133 || c = 160

/-- `bytes.upper()`: ASCII lowercase mapped to uppercase. -/
def byteUpper (c : Nat) : Nat := if 97 ≤ c ∧ c ≤ 122 then c - 32 else c

/-- `bytes.lower()` / `str.lower()` restricted to ASCII (all compared literals are ASCII). -/
def byteLower (c : Nat) : Nat := if 65 ≤ c ∧ c ≤ 90 then c + 32 else c

def lowerB (l : List Nat) : List Nat := l.map byteLower

def upperB (l : List Nat) : List Nat := l.map byteUpper

/-- Strip trailing bytes satisfying `p` (Python `rstrip`). -/
def rstripP (p : Nat → Bool) : List Nat → List Nat
  | [] => []
  | c :: rest =>
    let r := rstripP p rest
    if r = [] ∧ p c then [] else c :: r

/-- Strip leading bytes satisfying `p` (Python `lstrip`). -/
def lstripP (p : Nat → Bool) (l : List Nat) : List Nat := l.dropWhile p

/-- Python `strip`: both ends. -/
def stripP (p : Nat → Bool) (l : List Nat) : List Nat := rstripP p (lstripP p l)

/-- Substring test: `needle in hay` on Python strings/bytes. -/
def listContains (needle hay : List Nat) : Bool :=
  (List.range (hay.length + 1)).any (fun i => needle.isPrefixOf (hay.drop i))

/-! ## ByteStream operations (tulip stream reader, as consumed by protocol.py) -/

/-- `readline()`: bytes up to and including the next LF, or everything at EOF.
Returns the line and the remaining stream. -/
def readline : List Nat → List Nat × List Nat
  | [] => ([], [])
  | c :: rest =>
    if c = 10 then ([10], rest)
    else
      let p := readline rest
      (c :: p.1, p.2)

inductive RErr where
  | incompleteRead   -- http.client.IncompleteRead / premature EOF
  | valueErr         -- negative size handed to readexactly (unreachable from the writer)
  | fuelOut          -- loop fuel exhausted (artifact of the embedding)
  deriving DecidableEq, Repr

/-- `readexactly(n)`: exactly n bytes or IncompleteRead on premature EOF. -/
def readexactly (n : Nat) (s : List Nat) : Except RErr (List Nat × List Nat) :=
  if n ≤ s.length then .ok (s.take n, s.drop n) else .error .incompleteRead

/-! ## Python `int(line, 16)` over bytes -/

def hexVal? (c : Nat) : Option Nat :=
  if 48 ≤ c ∧ c ≤ 57 then some (c - 48)
  else if 97 ≤ c ∧ c ≤ 102 then some (c - 87)
  else if 65 ≤ c ∧ c ≤ 70 then some (c - 55)
  else none

/-- Hex digits with single underscores allowed between digits (CPython int
literal rule: an underscore must be followed by a digit). -/
def parseHexD (a : Nat) : List Nat → Option Nat
  | [] => some a
  | c :: rest =>
    if c = 95 then
      if (hexVal? (rest.headD 95)).isSome then parseHexD a rest else none
    else
      match hexVal? c with
      | some v => parseHexD (a * 16 + v) rest
      | none => none

/-- Hex body after any sign and base prefix: the first character must be a
digit, except that a single underscore directly after a `0x` prefix is
accepted. -/
def parseHexBody (afterPfx : Bool) : List Nat → Option Nat
  | [] => none
  | c :: rest =>
    if afterPfx ∧ c = 95 then
      if (hexVal? (rest.headD 95)).isSome then parseHexBody false rest else none
    else
      match hexVal? c with
      | some v => parseHexD v rest
      | none => none

/-- Optional `0x`/`0X` prefix, accepted by `int(_, 16)`. -/
def parseHexPfx (body : List Nat) : Option Nat :=
  if body.head? = some 48 ∧ (body.tail.head? = some 120 ∨ body.tail.head? = some 88) then
    parseHexBody true body.tail.tail
  else parseHexBody false body

/-- `int(line, 16)` on a bytes object: strip bytes-whitespace, optional sign,
optional 0x/0X prefix, hex digits with underscore rules. -/
def pyIntHex (l : List Nat) : Option Int :=
  let t := stripP isBWs l
  if t.head? = some 43 then (parseHexPfx t.tail).map (fun n => (n : Int))
  else if t.head? = some 45 then (parseHexPfx t.tail).map (fun n => -(n : Int))
  else (parseHexPfx t).map (fun n => (n : Int))

/-! ## HttpStreamWriter chunked framing (protocol.py lines 294-303) -/

def hexDigit (d : Nat) : Nat := if d < 10 then 48 + d else 87 + d

/-- Lowercase hex digits of `n`, most significant first (Python `'{:x}'.format`). -/
def natToHexAux (n : Nat) (acc : List Nat) : List Nat :=
  if h : n = 0 then acc
  else natToHexAux (n / 16) (hexDigit (n % 16) :: acc)
  decreasing_by exact Nat.div_lt_self (Nat.pos_of_ne_zero h) (by omega)

def natToHex (n : Nat) : List Nat := if n = 0 then [48] else natToHexAux n []

/-- `write_chunked(chunk)`: bytes put on the transport for one chunk
(empty chunks are skipped by the writer). -/
def writeChunked (c : List Nat) : List Nat :=
  if c = [] then []
  else natToHex c.length ++ [13, 10] ++ c ++ [13, 10]

/-- `write_chunked_eof()`. -/
def writeChunkedEof : List Nat := [48, 13, 10, 13, 10]

/-- Writing every chunk with `write_chunked` followed by `write_chunked_eof`. -/
def writeChunkedAll (cs : List (List Nat)) : List Nat :=
  (cs.map writeChunked).flatten ++ writeChunkedEof

/-! ## ChunkedReader (protocol.py lines 321-359) -/

/-- Index of the first occurrence of byte `t` (Python `bytes.find`). -/
def findByteIdx (t : Nat) : List Nat → Option Nat
  | [] => none
  | c :: rest => if c = t then some 0 else (findByteIdx t rest).map (· + 1)

/-- `_read_next_chunk_size`: read a line, strip any `;extension`, parse hex. -/
def readNextChunkSize (s : List Nat) : Option Int × List Nat :=
  let p := readline s
  let line :=
    match findByteIdx 59 p.1 with
    | some i => p.1.take i
    | none => p.1
  (pyIntHex line, p.2)

/-- Trailer drain: read and discard lines up to a CRLF/LF/empty terminator. -/
def drainTrailer : Nat → List Nat → Option (List Nat)
  | 0, _ => none
  | fuel + 1, s =>
    let p := readline s
    if p.1 = [13, 10] ∨ p.1 = [10] ∨ p.1 = [] then some p.2
    else drainTrailer fuel p.2

/-- One `ChunkedReader.read(stream)` call: returns one chunk's data, or `[]`
after the size-0 terminator and trailer drain; `ValueError` from the size
parse becomes IncompleteRead. -/
def chunkedRead (s : List Nat) : Except RErr (List Nat × List Nat) :=
  match readNextChunkSize s with
  | (none, _) => .error .incompleteRead
  | (some size, s1) =>
    if size = 0 then
      match drainTrailer (s1.length + 1) s1 with
      | some rest => .ok ([], rest)
      | none => .error .fuelOut
    else if size < 0 then .error .valueErr
    else
      match readexactly size.toNat s1 with
      | .error e => .error e
      | .ok (data, s2) =>
        match readexactly 2 s2 with
        | .error e => .error e
        | .ok (_, s3) => .ok (data, s3)

/-- `read_payload(ChunkedReader(), encoding=None)` (protocol.py lines 195-212):
loop the reader, concatenating chunks until an empty chunk. -/
def readPayloadChunked : Nat → List Nat → Except RErr (List Nat)
  | 0, _ => .error .fuelOut
  | fuel + 1, s =>
    match chunkedRead s with
    | .error e => .error e
    | .ok (chunk, rest) =>
      if chunk = [] then .ok []
      else
        match readPayloadChunked fuel rest with
        | .error e => .error e
        | .ok tail => .ok (chunk ++ tail)

/-! ## LengthReader (protocol.py lines 362-375) -/

/-- One `LengthReader.read(stream)` call on a reader holding `len` remaining
bytes: returns (data, new remaining length, rest of stream). -/
def lengthRead (len : Nat) (s : List Nat) :
    Except RErr (List Nat × Nat × List Nat) :=
  if len ≠ 0 then
    match readexactly len s with
    | .error e => .error e
    | .ok (data, rest) => .ok (data, 0, rest)
  else .ok ([], len, s)

/-! ## HttpStreamReader.read_headers (protocol.py lines 127-179) -/

inductive HErr where
  | invalidHeader      -- ValueError('Invalid header ...')
  | invalidHeaderName  -- ValueError('Invalid header name ...')
  | lineTooLongField   -- http.client.LineTooLong("limit request headers fields size")
  | lineTooLongTotal   -- http.client.LineTooLong("limit request headers fields")
  | fuelOut
  deriving DecidableEq, Repr

def MAX_HEADERS : Nat := 32768

def MAX_HEADERFIELD_SIZE : Nat := 8190

def isSpTab (c : Nat) : Bool := c = 32 || c = 9

/-- The byte set of `HDRRE = re.compile(b"[\x00-\x1F\x7F()<>@,;:\[\]={} \t\\\\\"]")`. -/
def isForbiddenHdr (c : Nat) : Bool :=
  c ≤ 31 || c = 127 || c = 40 || c = 41 || c = 60 || c = 62 || c = 64 ||
  c = 44 || c = 59 || c = 58 || c = 91 || c = 93 || c = 61 || c = 123 ||
  c = 125 || c = 32 || c = 92 || c = 34

/-- `HDRRE.search(name)` as a Bool. -/
def hdrSearch (l : List Nat) : Bool := l.any isForbiddenHdr

/-- Lines 139-149: split one header line at the first colon, canonicalize the
name (`rstrip(b' \t').upper()`, validate with HDRRE, then `strip()`), and
`lstrip()` the initial value part. -/
def parseHeaderStart (line : List Nat) : Except HErr (List Nat × List Nat) :=
  match findByteIdx 58 line with
  | none => .error .invalidHeader
  | some i =>
    let name1 := (rstripP isSpTab (line.take i)).map byteUpper
    if hdrSearch name1 then .error .invalidHeaderName
    else .ok (stripP isBWs name1, lstripP isBWs (line.drop (i + 1)))

/-- `line.startswith((b' ', b'\t'))`. -/
def isCont (line : List Nat) : Bool := line.head? = some 32 || line.head? = some 9

/-- Lines 158-166: consume continuation lines, accumulating the field length
and checking the per-field cap after each line. -/
def readCont : Nat → Nat → List (List Nat) → List Nat → List Nat →
    Except HErr (Nat × List (List Nat) × List Nat × List Nat)
  | 0, _, _, _, _ => .error .fuelOut
  | fuel + 1, hl, vals, line, s =>
    if isCont line then
      let hl2 := hl + line.length
      if MAX_HEADERFIELD_SIZE < hl2 then .error .lineTooLongField
      else
        let p := readline s
        readCont fuel hl2 (vals ++ [line]) p.1 p.2
    else .ok (hl, vals, line, s)

/-- The `while line not in (b'\r\n', b'\n')` loop of read_headers.
State: remaining fuel, accumulated total `size`, headers so far, current
line, rest of the stream. -/
def readHdrLoop : Nat → Nat → List (List Nat × List Nat) → List Nat → List Nat →
    Except HErr (List (List Nat × List Nat))
  | 0, _, _, _, _ => .error .fuelOut
  | fuel + 1, size, acc, line, s =>
    if line = [13, 10] ∨ line = [10] then .ok acc
    else
      match parseHeaderStart line with
      | .error e => .error e
      | .ok (name, value0) =>
        let p := readline s
        let step : Except HErr (Nat × List (List Nat) × List Nat × List Nat) :=
          if isCont p.1 then
            readCont (p.2.length + 1) line.length [] p.1 p.2
          else if MAX_HEADERFIELD_SIZE < line.length then .error .lineTooLongField
          else .ok (line.length, [], p.1, p.2)
        match step with
        | .error e => .error e
        | .ok (hl, vals, nextLine, s2) =>
          let size2 := size + hl
          if MAX_HEADERS ≤ size2 then .error .lineTooLongTotal
          else
            readHdrLoop fuel size2
              (acc ++ [(name, rstripP isBWs (value0 ++ vals.flatten))])
              nextLine s2

/-- `read_headers()` over a byte stream. -/
def readHeaders (s : List Nat) : Except HErr (List (List Nat × List Nat)) :=
  let p := readline s
  readHdrLoop (s.length + 1) 0 [] p.1 p.2

/-! ## HttpStreamReader.read_response_status (protocol.py lines 82-125) -/

/-- Python `str.split(None, maxsplit)` helper: next whitespace-separated token. -/
def nextTok (s : List Nat) : List Nat × List Nat :=
  let s1 := s.dropWhile isSWs
  (s1.takeWhile (fun c => ¬ isSWs c), s1.dropWhile (fun c => ¬ isSWs c))

/-- `line.split(None, 2)`: at most three parts; the third keeps the remainder
from its first non-whitespace byte on. -/
def splitWs2 (s : List Nat) : List (List Nat) :=
  let p1 := nextTok s
  if p1.1 = [] then []
  else
    let p2 := nextTok p1.2
    if p2.1 = [] then [p1.1]
    else
      let rest := p2.2.dropWhile isSWs
      if rest = [] then [p1.1, p2.1] else [p1.1, p2.1, rest]

def isDigitB (c : Nat) : Bool := 48 ≤ c && c ≤ 57

def decDigitsVal (l : List Nat) : Nat := l.foldl (fun a c => a * 10 + (c - 48)) 0

/-- Backtracking for `\d+.\d+` after the literal `HTTP/`: the first `\d+` is
greedy and gives back one digit at a time so that `.` and the second `\d+`
can match (re.match semantics of `VERSRE`). -/
def versTry (s : List Nat) : Nat → Option (Nat × Nat)
  | 0 => none
  | k + 1 =>
    match s.drop (k + 1) with
    | [] => versTry s k
    | _ :: rest2 =>
      let d2 := rest2.takeWhile isDigitB
      if d2 = [] then versTry s k
      else some (decDigitsVal (s.take (k + 1)), decDigitsVal d2)

/-- `VERSRE.match(version)` returning `(int(group(1)), int(group(2)))`.
`VERSRE = re.compile("HTTP/(\d+).(\d+)")` - the dot is unescaped and
matches any character. -/
def matchVers (v : List Nat) : Option (Nat × Nat) :=
  if (strBytes "HTTP/").isPrefixOf v then
    let s := v.drop 5
    versTry s (s.takeWhile isDigitB).length
  else none

/-- Decimal digits with single underscores between digits (CPython `int(str)`:
an underscore must be followed by a digit). -/
def parseDecD (a : Nat) : List Nat → Option Nat
  | [] => some a
  | c :: rest =>
    if c = 95 then
      if isDigitB (rest.headD 95) then parseDecD a rest else none
    else if isDigitB c then parseDecD (a * 10 + (c - 48)) rest else none

/-- `int(status)` on a str token: strip str-whitespace, optional sign, decimal
digits with underscore rules (no base prefix in base 10). -/
def pyIntDec (l : List Nat) : Option Int :=
  let t := stripP isSWs l
  let signed : Int → List Nat → Option Int := fun sg body =>
    (match body with
     | c :: rest => if isDigitB c then parseDecD (c - 48) rest else none
     | [] => none).map (fun n => sg * (n : Int))
  match t with
  | 43 :: body => signed 1 body
  | 45 :: body => signed (-1) body
  | body => signed 1 body

/-- `http.client.BadStatusLine(line)`: carries the (stripped) line. -/
inductive BSErr where
  | badStatusLine (line : List Nat)
  deriving DecidableEq, Repr

/-- Lines 111-125 of read_response_status: validate the version part, parse
the status as an integer, require it in [100, 999], strip the reason. -/
def statusFromParts (line version status reason : List Nat) :
    Except BSErr ((Nat × Nat) × Int × List Nat) :=
  match matchVers version with
  | none => .error (.badStatusLine line)
  | some ver =>
    match pyIntDec status with
    | none => .error (.badStatusLine line)
    | some code =>
      if code < 100 ∨ code > 999 then .error (.badStatusLine line)
      else .ok (ver, code, stripP isSWs reason)

/-- `read_response_status()` applied to the raw bytes returned by `readline()`
(protocol.py lines 96-125): strip, split into up to three parts (a one-part
line leaves `version = ''`, which then fails the version match), validate. -/
def readResponseStatus (raw : List Nat) : Except BSErr ((Nat × Nat) × Int × List Nat) :=
  let line := stripP isSWs raw
  if line = [] then .error (.badStatusLine line)
  else
    match splitWs2 line with
    | [v, st, r] => statusFromParts line v st r
    | [v, st] => statusFromParts line v st []
    | _ => statusFromParts line [] [] []

/-! ## read_message header walk (protocol.py lines 217-247) -/

/-- State built by the `for (name, value) in headers` loop of read_message. -/
structure MsgParams where
  contentLength : Option (List Nat ⊕ Nat)
  chunked : Bool
  cmode : Option (List Nat)
  closeConn : Option Bool
  deriving DecidableEq, Repr

def initParams (length : Option Nat) : MsgParams :=
  ⟨length.map Sum.inr, false, none, none⟩

/-- One iteration of the header walk. -/
def processHeader (compression : Bool) (st : MsgParams) (nv : List Nat × List Nat) :
    MsgParams :=
  let name := nv.1
  let value := nv.2
  if name = strBytes "CONTENT-LENGTH" then { st with contentLength := some (.inl value) }
  else if name = strBytes "TRANSFER-ENCODING" then
    { st with chunked := listContains (strBytes "chunked") (lowerB value) }
  else if name = strBytes "SEC-WEBSOCKET-KEY1" then
    { st with contentLength := some (.inr 8) }
  else if name = strBytes "CONNECTION" then
    let v := lowerB value
    if v = strBytes "close" then { st with closeConn := some true }
    else if v = strBytes "keep-alive" then { st with closeConn := some false }
    else st
  else if name = strBytes "CONTENT-ENCODING" ∧ compression then
    let enc := lowerB value
    if listContains (strBytes "gzip") enc then { st with cmode := some (strBytes "gzip") }
    else if listContains (strBytes "deflate") enc then
      { st with cmode := some (strBytes "deflate") }
    else st
  else st

/-- Python tuple comparison `version <= (1, 0)` on (major, minor). -/
def verLe10 (v : Nat × Nat) : Bool := v.1 < 1 || (v.1 = 1 && v.2 ≤ 0)

/-- The `close` flag of the message returned by read_message: walk the headers,
then default to `version <= (1, 0)` when no CONNECTION directive applied. -/
def closeAfterOf (headers : List (List Nat × List Nat)) (version : Nat × Nat)
    (compression : Bool) (length : Option Nat) : Bool :=
  match (headers.foldl (processHeader compression) (initParams length)).closeConn with
  | some b => b
  | none => verLe10 version

end Httpclient

namespace Wsproto

open Httpclient (strBytes lowerB listContains hexDigit)

/-! ## SHA-1 (RFC 3174), the function `hashlib.sha1` computes.
Modelled from the spec: `wsproto.py` calls the standard library's SHA-1;
the algorithm below is the standard one, over byte lists, with 32-bit
words as `Nat` reduced mod 2^32. -/

def rotl32 (x n : Nat) : Nat := ((x <<< n) ||| (x >>> (32 - n))) % 4294967296

def beWord4 (a b c d : Nat) : Nat := ((a * 256 + b) * 256 + c) * 256 + d

def bytesToWords : List Nat → List Nat
  | a :: b :: c :: d :: rest => beWord4 a b c d :: bytesToWords rest
  | _ => []

def beBytes4 (w : Nat) : List Nat :=
  [w / 16777216 % 256, w / 65536 % 256, w / 256 % 256, w % 256]

def beBytes8 (n : Nat) : List Nat := beBytes4 (n / 4294967296) ++ beBytes4 n

def sha1Extend : Nat → List Nat → List Nat
  | 0, ws => ws
  | fuel + 1, ws =>
    let n := ws.length
    let w := rotl32 ((ws.getD (n - 3) 0) ^^^ (ws.getD (n - 8) 0) ^^^
                     (ws.getD (n - 14) 0) ^^^ (ws.getD (n - 16) 0)) 1
    sha1Extend fuel (ws ++ [w])

def sha1F (i b c d : Nat) : Nat :=
  if i < 20 then (b &&& c) ||| ((b ^^^ 4294967295) &&& d)
  else if i < 40 then b ^^^ c ^^^ d
  else if i < 60 then (b &&& c) ||| (b &&& d) ||| (c &&& d)
  else b ^^^ c ^^^ d

def sha1K (i : Nat) : Nat :=
  if i < 20 then 1518500249
  else if i < 40 then 1859775393
  else if i < 60 then 2400959708
  else 3395469782

def sha1Round (st : Nat × Nat × Nat × Nat × Nat) (iw : Nat × Nat) :
    Nat × Nat × Nat × Nat × Nat :=
  let (a, b, c, d, e) := st
  let t := (rotl32 a 5 + sha1F iw.1 b c d + e + sha1K iw.1 + iw.2) % 4294967296
  (t, a, rotl32 b 30, c, d)

def sha1Block (h : Nat × Nat × Nat × Nat × Nat) (block : List Nat) :
    Nat × Nat × Nat × Nat × Nat :=
  let ws := sha1Extend 64 (bytesToWords block)
  let (a, b, c, d, e) := ((List.range 80).zip ws).foldl sha1Round h
  let (h0, h1, h2, h3, h4) := h
  ((h0 + a) % 4294967296, (h1 + b) % 4294967296, (h2 + c) % 4294967296,
   (h3 + d) % 4294967296, (h4 + e) % 4294967296)

def sha1Pad (msg : List Nat) : List Nat :=
  let r := (msg.length + 1) % 64
  msg ++ [128] ++ List.replicate ((120 - r) % 64) 0 ++ beBytes8 (8 * msg.length)

def splitBlocks : Nat → List Nat → List (List Nat)
  | 0, _ => []
  | _, [] => []
  | fuel + 1, l => l.take 64 :: splitBlocks fuel (l.drop 64)

def sha1 (msg : List Nat) : List Nat :=
  let padded := sha1Pad msg
  let h := (splitBlocks padded.length padded).foldl sha1Block
    (1732584193, 4023233417, 2562383102, 271733878, 3285377520)
  beBytes4 h.1 ++ beBytes4 h.2.1 ++ beBytes4 h.2.2.1 ++ beBytes4 h.2.2.2.1 ++
    beBytes4 h.2.2.2.2

/-! ## base64 (`base64.b64encode` / `b64decode`).
Modelled from the spec: the standard alphabet; decoding handles the
canonical padded form (the only form the handshake check needs). -/

def b64char (d : Nat) : Nat :=
  if d < 26 then 65 + d
  else if d < 52 then 71 + d
  else if d < 62 then d - 4
  else if d = 62 then 43
  else 47

def b64encode : List Nat → List Nat
  | a :: b :: c :: rest =>
    let n := (a * 256 + b) * 256 + c
    b64char (n / 262144) :: b64char (n / 4096 % 64) :: b64char (n / 64 % 64) ::
      b64char (n % 64) :: b64encode rest
  | [a, b] =>
    [b64char (a / 4), b64char (a % 4 * 16 + b / 16), b64char (b % 16 * 4), 61]
  | [a] => [b64char (a / 4), b64char (a % 4 * 16), 61, 61]
  | [] => []

def b64val? (c : Nat) : Option Nat :=
  if 65 ≤ c ∧ c ≤ 90 then some (c - 65)
  else if 97 ≤ c ∧ c ≤ 122 then some (c - 71)
  else if 48 ≤ c ∧ c ≤ 57 then some (c + 4)
  else if c = 43 then some 62
  else if c = 47 then some 63
  else none

def b64decode : List Nat → Option (List Nat)
  | [] => some []
  | [a, b, 61, 61] =>
    match b64val? a, b64val? b with
    | some va, some vb => some [va * 4 + vb / 16]
    | _, _ => none
  | [a, b, c, 61] =>
    match b64val? a, b64val? b, b64val? c with
    | some va, some vb, some vc => some [va * 4 + vb / 16, vb % 16 * 16 + vc / 4]
    | _, _, _ => none
  | a :: b :: c :: d :: rest =>
    match b64val? a, b64val? b, b64val? c, b64val? d, b64decode rest with
    | some va, some vb, some vc, some vd, some tail =>
      let n := ((va * 64 + vb) * 64 + vc) * 64 + vd
      (n / 65536) :: (n / 256 % 256) :: (n % 256) :: tail
    | _, _, _, _, _ => none
  | _ => none

/-! ## WebSocketProto handshake (wsproto.py lines 37-97) -/

def WS_KEY : List Nat := strBytes "258EAFA5-E914-47DA-95CA-C5AB0DC85B11"

/-- `base64.b64encode(hashlib.sha1(key + WS_KEY).digest())` - the expression
both `serve` (line 61) and `connect` (line 94) compute. -/
def wsAccept (key : List Nat) : List Nat := b64encode (sha1 (key ++ WS_KEY))

/-- The environ dict fields `serve` consults (`environ.get`). -/
structure Environ where
  upgrade : Option (List Nat)
  connection : Option (List Nat)
  secVersion : Option (List Nat)
  secKey : Option (List Nat)
  deriving DecidableEq, Repr

def BAD_REQUEST : List Nat × List (List Nat) :=
  (strBytes "400 Bad Request\r\n",
   [strBytes "Connection: close\r\n", strBytes "Content-Length: 0\r\n"])

/-- `WebSocketProto.serve` (lines 37-63): validate the client handshake and
build the 101 response. A missing environ entry behaves like the empty
string (`environ.get(k)` returning None is falsy, exactly like `''`), so the
`not version` / `not key` tests are folded into the `getD []` emptiness
checks. `.error ()` is the `binascii.Error` that `base64.b64decode` raises
on an invalid key, which propagates out of serve. -/
def serve (env : Environ) : Except Unit (List Nat × List (List Nat)) :=
  if ¬ listContains (strBytes "websocket") (lowerB (env.upgrade.getD [])) then
    .ok BAD_REQUEST
  else if ¬ listContains (strBytes "upgrade") (lowerB (env.connection.getD [])) then
    .ok BAD_REQUEST
  else
    let version := env.secVersion.getD []
    if version = [] ∨ (version ≠ strBytes "13" ∧ version ≠ strBytes "8") then
      .ok BAD_REQUEST
    else
      let key := env.secKey.getD []
      if key = [] then .ok BAD_REQUEST
      else
        match b64decode key with
        | none => .error ()
        | some dk =>
          if dk.length ≠ 16 then .ok BAD_REQUEST
          else
            .ok (strBytes "101 Switching Protocols\r\n",
              [strBytes "Upgrade: websocket\r\n",
               strBytes "Connection: Upgrade\r\n",
               strBytes "Transfer-Encoding: chunked\r\n",
               strBytes "Sec-WebSocket-Accept: " ++ wsAccept key ++ [13, 10]])

/-- The response-validation part of `WebSocketProto.connect` (lines 84-97):
check status, upgrade, connection, and the accept key derived from the key
the client sent. Errors are the `ValueError` messages. -/
def connectCheck (secKey : List Nat) (status : Nat)
    (upgradeH connectionH acceptH : List Nat) : Except (List Nat) Unit :=
  if status ≠ 101 then .error (strBytes "Handshake error: Invalid response status")
  else if lowerB upgradeH ≠ strBytes "websocket" then
    .error (strBytes "Handshake error - Invalid upgrade header")
  else if lowerB connectionH ≠ strBytes "upgrade" then
    .error (strBytes "Handshake error - Invalid connection header")
  else if acceptH ≠ wsAccept secKey then
    .error (strBytes "Handshake error - Invalid challenge response")
  else .ok ()

/-! ## WebSocket frame layer (wsproto.py lines 102-339) -/

inductive WSErr where
  | wsErr      -- WebSocketError
  | nameErr    -- NameError: name 'FrameTooLargeException' is not defined
  | typeErr    -- TypeError: struct.unpack received a str instead of bytes
  | structErr  -- struct.error
  | assertErr  -- AssertionError
  | fuelOut
  deriving DecidableEq, Repr

structure WSState where
  closeCode : Option Nat
  closeMessage : Option (List Nat)
  closed : Bool
  chunksLen : Nat      -- len(self._chunks); nothing in this code ever grows it
  sent : List Nat      -- bytes written to self._wstream
  deriving DecidableEq, Repr

def initWS : WSState := ⟨none, none, false, 0, []⟩

/-- `_send_frame` (lines 310-324): FIN always set; 7/16/64-bit length.
The final branch raises the unbound name `FrameTooLargeException`, which in
Python 3 is a `NameError`. -/
def sendFrame (st : WSState) (message : List Nat) (opcode : Nat) :
    Except WSErr WSState :=
  let ml := message.length
  if ml < 126 then .ok { st with sent := st.sent ++ [128 ||| opcode, ml] ++ message }
  else if ml < 65536 then
    .ok { st with sent := st.sent ++ [128 ||| opcode, 126, ml / 256, ml % 256] ++ message }
  else if ml < 9223372036854775808 then
    .ok { st with sent := st.sent ++ [128 ||| opcode, 127] ++ beBytes8 ml ++ message }
  else .error .nameErr

/-- `struct.pack('!H', code)`. -/
def pack16 (code : Nat) : Except WSErr (List Nat) :=
  if code < 65536 then .ok [code / 256, code % 256] else .error .structErr

/-- `close(code, message)` (lines 333-339). -/
def wsClose (st : WSState) (code : Nat) (message : List Nat) : Except WSErr WSState :=
  if ¬ st.closed then
    match pack16 code with
    | .error e => .error e
    | .ok cb =>
      match sendFrame st (cb ++ message) 8 with
      | .error e => .error e
      | .ok st2 => .ok { st2 with closed := true }
  else .ok st

/-- `self.close(1002)` followed by raising `e`. -/
def closeAndRaise (st : WSState) (e : WSErr) (α : Type) : WSState × Except WSErr α :=
  match wsClose st 1002 [] with
  | .ok st2 => (st2, .error e)
  | .error e2 => (st, .error e2)

/-- `_parse_header(data)` (lines 102-154). Returns (fin, opcode, has_mask,
length). The control-frame size check raises the unbound
`FrameTooLargeException`, i.e. a `NameError`, after sending close(1002). -/
def parseFrameHeader (st : WSState) (data : List Nat) :
    WSState × Except WSErr (Nat × Nat × Nat × Nat) :=
  if data.length ≠ 2 then (st, .error .wsErr)
  else
    let b0 := data.getD 0 0
    let b1 := data.getD 1 0
    let fin := b0 / 128 % 2
    let rsv1 := b0 / 64 % 2
    let rsv2 := b0 / 32 % 2
    let rsv3 := b0 / 16 % 2
    let opcode := b0 % 16
    if rsv1 ≠ 0 ∨ rsv2 ≠ 0 ∨ rsv3 ≠ 0 then closeAndRaise st .wsErr _
    else if opcode > 7 ∧ fin = 0 then closeAndRaise st .wsErr _
    else if st.chunksLen > 0 ∧ fin = 0 ∧ opcode = 0 then closeAndRaise st .wsErr _
    else if st.chunksLen > 0 ∧ fin = 1 ∧ 1 ≤ opcode ∧ opcode ≤ 2 then
      closeAndRaise st .wsErr _
    else
      let hasMask := b1 / 128 % 2
      let length := b1 % 128
      if opcode > 7 ∧ length > 125 then closeAndRaise st .nameErr _
      else (st, .ok (fin, opcode, hasMask, length))

/-- XOR the payload with the 4-byte mask (lines 214-216). -/
def applyMask (mask payload : List Nat) : List Nat :=
  (List.range payload.length).map (fun i => (payload.getD i 0) ^^^ (mask.getD (i % 4) 0))

/-- Python 3 `str(bytearray(...))`: the repr text, not the bytes. -/
def escByte (b : Nat) : List Nat :=
  if b = 92 then [92, 92]
  else if b = 39 then [92, 39]
  else if b = 9 then [92, 116]
  else if b = 10 then [92, 110]
  else if b = 13 then [92, 114]
  else if 32 ≤ b ∧ b < 127 then [b]
  else [92, 120, hexDigit (b / 16), hexDigit (b % 16)]

def bytearrayRepr (l : List Nat) : List Nat :=
  strBytes "bytearray(b'" ++ (l.map escByte).flatten ++ strBytes "')"

/-- A Python value handed to `struct.unpack`: bytes-like, or a str. -/
inductive PyVal where
  | pbytes (l : List Nat)
  | pstr (l : List Nat)
  deriving DecidableEq, Repr

/-- `struct.unpack('!H', v)[0]`: needs a bytes-like object of length 2; a str
raises `TypeError` regardless of content. -/
def structUnpackH : PyVal → Except WSErr Nat
  | .pbytes l => if l.length = 2 then .ok (l.getD 0 0 * 256 + l.getD 1 0) else .error .structErr
  | .pstr _ => .error .typeErr

/-- `_receive_frame` (lines 156-218) over a byte stream. Returns the new
state, `none` at EOF or `some (fin, opcode, payload, isBytearray)`, and the
rest of the stream. `stream.read(n)` returns up to n bytes. -/
def receiveFrame (st : WSState) (s : List Nat) :
    WSState × Except WSErr (Option (Nat × Nat × List Nat × Bool)) × List Nat :=
  let data0 := s.take 2
  let s1 := s.drop 2
  if data0 = [] then (st, .ok none, s1)
  else
    match parseFrameHeader st data0 with
    | (st1, .error e) => (st1, .error e, s1)
    | (st1, .ok (fin, opcode, hasMask, len7)) =>
      let ext : WSState × Except WSErr (Nat × List Nat) :=
        if len7 < 126 then (st1, .ok (len7, s1))
        else if len7 = 126 then
          let d1 := s1.take 2
          if d1.length ≠ 2 then
            match wsClose st1 1000 [] with
            | .ok st2 => (st2, .error .wsErr)
            | .error e2 => (st1, .error e2)
          else (st1, .ok (d1.getD 0 0 * 256 + d1.getD 1 0, s1.drop 2))
        else
          let d1 := s1.take 8
          if d1.length ≠ 8 then
            match wsClose st1 1000 [] with
            | .ok st2 => (st2, .error .wsErr)
            | .error e2 => (st1, .error e2)
          else
            (st1, .ok (d1.foldl (fun a b => a * 256 + b) 0, s1.drop 8))
      match ext with
      | (st2, .error e) => (st2, .error e, s1)
      | (st2, .ok (length, s2)) =>
        let maskR : Except WSErr (Option (List Nat) × List Nat) :=
          if hasMask = 1 then
            let m := s2.take 4
            if m.length ≠ 4 then .error .wsErr
            else .ok (some m, s2.drop 4)
          else .ok (none, s2)
        match maskR with
        | .error e => (st2, .error e, s2)
        | .ok (mask, s3) =>
          let payR : Except WSErr (List Nat × List Nat) :=
            if length ≠ 0 then
              let p := s3.take length
              if p.length ≠ length then .error .wsErr else .ok (p, s3.drop length)
            else .ok ([], s3)
          match payR with
          | .error e => (st2, .error e, s3)
          | .ok (payload0, s4) =>
            -- `if payload: payload = bytearray(payload); if mask: xor`
            let isBA := payload0 ≠ []
            let payload :=
              if payload0 ≠ [] then
                match mask with
                | some m => applyMask m payload0
                | none => payload0
              else payload0
            (st2, .ok (some (fin, opcode, payload, isBA)), s4)

/-- `_receive` (lines 220-292): the message-reassembly loop. Returns the new
state and `none` (empty receive) or `some (message, is_binary)`. -/
def receiveLoop : Nat → WSState → List Nat → Option Nat → List Nat →
    WSState × Except WSErr (Option (List Nat × Bool))
  | 0, st, _, _, _ => (st, .error .fuelOut)
  | fuel + 1, st, s, opcode?, result =>
    match receiveFrame st s with
    | (st1, .error e, _) =>
      -- `except: if self._closed: return` - swallowed when already closed
      if st1.closed then (st1, .ok none) else (st1, .error e)
    | (st1, .ok none, _) =>
      if result ≠ [] then (st1, .error .wsErr) else (st1, .ok none)
    | (st1, .ok (some (fin, op, payload, _)), rest) =>
      if op = 1 ∨ op = 2 then
        match opcode? with
        | none =>
          let result2 := result ++ payload
          if fin ≠ 0 then
            if op = 1 then (st1, .ok (some (result2, false)))
            else (st1, .ok (some (result2, true)))
          else receiveLoop fuel st1 rest (some op) result2
        | some _ => (st1, .error .wsErr)
      else if op = 0 then
        match opcode? with
        | none => closeAndRaise st1 .wsErr _
        | some oc =>
          let result2 := result ++ payload
          if fin ≠ 0 then
            if oc = 1 then (st1, .ok (some (result2, false)))
            else if oc = 2 then (st1, .ok (some (result2, true)))
            else (st1, .error .assertErr)
          else receiveLoop fuel st1 rest (some oc) result2
      else if op = 8 then
        if payload.length ≥ 2 then
          -- line 254: struct.unpack('!H', str(f_payload[:2])) - the payload
          -- is a bytearray here, so str() yields its repr: TypeError.
          match structUnpackH (.pstr (bytearrayRepr (payload.take 2))) with
          | .error e => (st1, .error e)
          | .ok code =>
            let st2 := { st1 with closeCode := some code,
                                  closeMessage := some (payload.drop 2) }
            if 1000 ≤ code ∧ code < 5000 then
              match wsClose st2 1000 [] with
              | .ok st3 => (st3, .ok none)
              | .error e => (st2, .error e)
            else closeAndRaise st2 .wsErr _
        else if payload ≠ [] then (st1, .error .wsErr)
        else
          match st1.closeCode with
          | none =>
            match wsClose st1 1000 [] with
            | .ok st2 => (st2, .ok none)
            | .error e => (st1, .error e)
          | some c =>
            if 1000 ≤ c ∧ c < 5000 then
              match wsClose st1 1000 [] with
              | .ok st2 => (st2, .ok none)
              | .error e => (st1, .error e)
            else closeAndRaise st1 .wsErr _
      else if op = 9 then
        match sendFrame st1 payload 10 with
        | .ok st2 => receiveLoop fuel st2 rest opcode? result
        | .error e => (st1, .error e)
      else if op = 10 then receiveLoop fuel st1 rest opcode? result
      else (st1, .error .wsErr)

end Wsproto

namespace Httpclient

/-! # Shared utility lemmas -/

theorem readline_append (l r : List Nat) (h : 10 ∉ l) :
    readline (l ++ 10 :: r) = (l ++ [10], r) := by
  induction l with
  | nil => simp [readline]
  | cons c t ih =>
    have hc : c ≠ 10 := fun hc => h (by simp [hc])
    have ht : 10 ∉ t := fun hm => h (List.mem_cons_of_mem c hm)
    simp [readline, hc, ih ht]

instance {ε α : Type} [DecidableEq ε] [DecidableEq α] : DecidableEq (Except ε α) :=
  fun x y =>
  match x, y with
  | .ok a, .ok b =>
    if h : a = b then isTrue (by rw [h])
    else isFalse (fun hx => h (Except.ok.inj hx))
  | .error a, .error b =>
    if h : a = b then isTrue (by rw [h])
    else isFalse (fun hx => h (Except.error.inj hx))
  | .ok _, .error _ => isFalse (fun hx => Except.noConfusion hx)
  | .error _, .ok _ => isFalse (fun hx => Except.noConfusion hx)

theorem rstripP_append (p : Nat → Bool) (l1 l2 : List Nat) :
    rstripP p (l1 ++ l2) =
      if rstripP p l2 = [] then rstripP p l1 else l1 ++ rstripP p l2 := by
  induction l1 with
  | nil =>
    simp only [List.nil_append, rstripP]
    split <;> simp_all
  | cons c t ih =>
    by_cases h2 : rstripP p l2 = []
    · simp only [h2, if_true, eq_self_iff_true] at ih ⊢
      simp only [List.cons_append, rstripP, List.append_eq, ih]
    · simp only [h2, if_false] at ih ⊢
      have hne : t ++ rstripP p l2 ≠ [] := by
        intro hx
        exact h2 (List.append_eq_nil.mp hx).2
      simp only [List.cons_append, rstripP, List.append_eq, ih]
      simp [hne]

theorem rstripP_all (p : Nat → Bool) (l : List Nat) (h : ∀ c ∈ l, p c = true) :
    rstripP p l = [] := by
  induction l with
  | nil => rfl
  | cons c t ih =>
    have := ih (fun x hx => h x (List.mem_cons_of_mem c hx))
    simp [rstripP, this, h c (by simp)]

theorem rstripP_nop (p : Nat → Bool) (l : List Nat) (h : ∀ c ∈ l, p c = false) :
    rstripP p l = l := by
  induction l with
  | nil => rfl
  | cons c t ih =>
    have ht := ih (fun x hx => h x (List.mem_cons_of_mem c hx))
    simp only [rstripP, ht]
    cases t with
    | nil => simp [h c (by simp)]
    | cons d u => simp

theorem dropWhile_nop (p : Nat → Bool) (l : List Nat)
    (h : ∀ c ∈ l, p c = false) : l.dropWhile p = l := by
  cases l with
  | nil => rfl
  | cons c t => simp [List.dropWhile_cons, h c (by simp)]

theorem rstripP_eq_nil (p : Nat → Bool) (l : List Nat) (h : rstripP p l = []) :
    ∀ c ∈ l, p c = true := by
  induction l with
  | nil => simp
  | cons c t ih =>
    intro x hx
    simp only [rstripP] at h
    by_cases hr : rstripP p t = []
    · rcases List.mem_cons.mp hx with rfl | hxt
      · by_cases hpc : p x = true
        · exact hpc
        · simp [hr, hpc] at h
      · exact ih hr x hxt
    · simp [hr] at h

/-- `rstrip` and `dropWhile` with the same predicate commute. -/
theorem rstripP_dropWhile_comm (p : Nat → Bool) (l : List Nat) :
    rstripP p (l.dropWhile p) = (rstripP p l).dropWhile p := by
  induction l with
  | nil => rfl
  | cons c t ih =>
    by_cases hpc : p c = true
    · rw [List.dropWhile_cons_of_pos hpc, ih]
      simp only [rstripP]
      by_cases hr : rstripP p t = []
      · simp [hr, hpc]
      · simp [hr, hpc, List.dropWhile_cons_of_pos]
    · rw [List.dropWhile_cons_of_neg (by simpa using hpc)]
      simp only [rstripP]
      have hcond : ¬ (rstripP p t = [] ∧ p c = true) := fun hx => hpc hx.2
      simp only [hcond, if_false]
      rw [List.dropWhile_cons_of_neg (by simpa using hpc)]

/-! # C10 - LengthReader exhaustion invariant -/

/-- C10: a `LengthReader` built with n > 0 returns exactly the next n bytes on
its first read and sets the remaining length to 0; a read with remaining
length 0 returns the empty byte string without consuming the stream. -/
theorem lengthReader_exhaustion (n : Nat) (s : List Nat)
    (hn : 0 < n) (hs : n ≤ s.length) :
    lengthRead n s = .ok (s.take n, 0, s.drop n) ∧
    ∀ t : List Nat, lengthRead 0 t = .ok ([], 0, t) := by
  constructor
  · have hn' : n ≠ 0 := Nat.pos_iff_ne_zero.mp hn
    simp [lengthRead, readexactly, hn', hs]
  · intro t
    simp [lengthRead]

theorem lengthReader_exhaustion_witness :
    lengthRead 2 [5, 6, 7] = .ok ([5, 6], 0, [7]) ∧
    lengthRead 0 [9] = .ok ([], 0, [9]) :=
  ⟨(lengthReader_exhaustion 2 [5, 6, 7] (by decide) (by decide)).1,
   (lengthReader_exhaustion 2 [5, 6, 7] (by decide) (by decide)).2 [9]⟩

end Httpclient

namespace Wsproto

/-! # C3 - WebSocket close handshake (scenario S7) -/

/-- C3: feeding the close frame `\x88\x09\x03\xe8goodbye` (opcode 0x8, payload
`\x03\xe8` ++ "goodbye") to `_receive` does NOT set close_code/close_message
or send a reply close frame: line 254 passes `str(bytearray(...))` to
`struct.unpack`, which raises `TypeError` in Python 3, leaving the state
unchanged (`initWS`: close_code = none, nothing sent). -/
theorem ws_close_frame_typeerror :
    Wsproto.receiveLoop 2 initWS
        ([136, 9, 3, 232] ++ Httpclient.strBytes "goodbye") none [] =
      (initWS, .error .typeErr) := by decide

/-! # C4 - control-frame size policing -/

/-- C4: an unfragmented control frame (FIN=1, RSV=0, opcode > 0x7) whose 7-bit
length field exceeds 125 makes `_parse_header` send close(1002) (bytes
`[0x88, 0x02, 0x03, 0xEA]`) and then raise - but the raise is of the unbound
name `FrameTooLargeException`, i.e. a `NameError`, not a FrameTooLarge
error. -/
theorem ws_control_frame_size_policing (b0 b1 : Nat)
    (hrsv1 : b0 / 64 % 2 = 0) (hrsv2 : b0 / 32 % 2 = 0) (hrsv3 : b0 / 16 % 2 = 0)
    (hfin : b0 / 128 % 2 = 1) (hop : 7 < b0 % 16) (hlen : 125 < b1 % 128) :
    parseFrameHeader initWS [b0, b1] =
      ({ initWS with closed := true, sent := [136, 2, 3, 234] }, .error .nameErr) := by
  unfold parseFrameHeader
  simp [initWS, hrsv1, hrsv2, hrsv3, hfin, hop, hlen, closeAndRaise, wsClose,
    pack16, sendFrame]

theorem ws_control_frame_size_policing_witness :
    parseFrameHeader initWS [137, 126] =
      ({ initWS with closed := true, sent := [136, 2, 3, 234] }, .error .nameErr) :=
  ws_control_frame_size_policing 137 126 (by decide) (by decide) (by decide)
    (by decide) (by decide) (by decide)

end Wsproto

namespace Httpclient

/-! # C1 - chunked framing round trip: hex lemmas -/

theorem natToHexAux_acc (n : Nat) :
    ∀ acc : List Nat, natToHexAux n acc = natToHexAux n [] ++ acc := by
  induction n using Nat.strong_induction_on with
  | _ n ih =>
    intro acc
    by_cases h : n = 0
    · subst h
      simp [natToHexAux]
    · have hlt : n / 16 < n := Nat.div_lt_self (Nat.pos_of_ne_zero h) (by omega)
      conv_lhs => rw [natToHexAux]
      conv_rhs => rw [natToHexAux]
      rw [dif_neg h, dif_neg h]
      rw [ih (n / 16) hlt (hexDigit (n % 16) :: acc),
        ih (n / 16) hlt [hexDigit (n % 16)]]
      simp

theorem natToHexAux_digits (n : Nat) :
    ∀ c ∈ natToHexAux n [], ∃ d, d < 16 ∧ c = hexDigit d := by
  induction n using Nat.strong_induction_on with
  | _ n ih =>
    by_cases h : n = 0
    · subst h
      simp [natToHexAux]
    · have hlt : n / 16 < n := Nat.div_lt_self (Nat.pos_of_ne_zero h) (by omega)
      have hunf : natToHexAux n [] =
          natToHexAux (n / 16) [] ++ [hexDigit (n % 16)] := by
        conv_lhs => rw [natToHexAux, dif_neg h]
        rw [natToHexAux_acc]
      rw [hunf]
      intro c hc
      rcases List.mem_append.mp hc with hc1 | hc2
      · exact ih (n / 16) hlt c hc1
      · exact ⟨n % 16, Nat.mod_lt n (by omega), (List.mem_singleton.mp hc2)⟩

theorem hexVal?_hexDigit (d : Nat) (h : d < 16) : hexVal? (hexDigit d) = some d := by
  unfold hexVal? hexDigit
  split_ifs <;> simp_all <;> omega

theorem hexDigit_range (d : Nat) (h : d < 16) :
    (48 ≤ hexDigit d ∧ hexDigit d ≤ 57) ∨ (97 ≤ hexDigit d ∧ hexDigit d ≤ 102) := by
  unfold hexDigit
  split_ifs <;> omega

theorem natToHexAux_foldl (n : Nat) :
    ∀ a : Nat,
      (natToHexAux n []).foldl (fun x c => x * 16 + (hexVal? c).getD 0) a =
        a * 16 ^ (natToHexAux n []).length + n := by
  induction n using Nat.strong_induction_on with
  | _ n ih =>
    intro a
    by_cases h : n = 0
    · subst h
      simp [natToHexAux]
    · have hlt : n / 16 < n := Nat.div_lt_self (Nat.pos_of_ne_zero h) (by omega)
      conv_lhs => rw [natToHexAux, dif_neg h]
      conv_rhs => rw [natToHexAux, dif_neg h]
      rw [natToHexAux_acc, List.foldl_append, ih (n / 16) hlt a,
        List.length_append]
      simp only [List.foldl_cons, List.foldl_nil, List.length_cons,
        List.length_nil, hexVal?_hexDigit (n % 16) (Nat.mod_lt n (by omega)),
        Option.getD_some]
      set L := (natToHexAux (n / 16) []).length with hL
      calc (a * 16 ^ L + n / 16) * 16 + n % 16
          = a * (16 ^ L * 16) + (16 * (n / 16) + n % 16) := by ring
        _ = a * 16 ^ (L + 1) + n := by rw [Nat.div_add_mod, pow_succ]

theorem natToHex_digits (n : Nat) :
    ∀ c ∈ natToHex n, ∃ d, d < 16 ∧ c = hexDigit d := by
  unfold natToHex
  split_ifs with h
  · intro c hc
    exact ⟨0, by omega, by simpa [hexDigit] using List.mem_singleton.mp hc⟩
  · exact natToHexAux_digits n

theorem natToHex_ne_nil (n : Nat) : natToHex n ≠ [] := by
  unfold natToHex
  split_ifs with h
  · simp
  · intro hnil
    have : (natToHexAux n []).foldl (fun x c => x * 16 + (hexVal? c).getD 0) 0 =
        0 * 16 ^ (natToHexAux n []).length + n := natToHexAux_foldl n 0
    rw [hnil] at this
    simp at this
    exact h this.symm

theorem isBWs_false_of_range (c : Nat)
    (h : (48 ≤ c ∧ c ≤ 57) ∨ (97 ≤ c ∧ c ≤ 102)) : isBWs c = false := by
  unfold isBWs
  simp only [Bool.or_eq_false_iff, decide_eq_false_iff_not]
  omega

theorem hexDigit_not_bws (d : Nat) (h : d < 16) : isBWs (hexDigit d) = false :=
  isBWs_false_of_range _ (hexDigit_range d h)

theorem parseHexD_digits (l : List Nat) :
    ∀ a : Nat, (∀ c ∈ l, (hexVal? c).isSome) →
      parseHexD a l = some (l.foldl (fun x c => x * 16 + (hexVal? c).getD 0) a) := by
  induction l with
  | nil => intro a _; rfl
  | cons c t ih =>
    intro a h
    have hc := h c (by simp)
    obtain ⟨v, hv⟩ := Option.isSome_iff_exists.mp hc
    have hc95 : c ≠ 95 := by
      intro hcc
      rw [hcc, (by decide : hexVal? 95 = none)] at hv
      exact Option.noConfusion hv
    simp only [parseHexD, hc95, if_false, hv]
    rw [ih (a * 16 + v) (fun x hx => h x (List.mem_cons_of_mem c hx))]
    simp [hv]

theorem natToHex_foldl_zero (n : Nat) (h : n ≠ 0) :
    (natToHex n).foldl (fun x c => x * 16 + (hexVal? c).getD 0) 0 = n := by
  unfold natToHex
  rw [if_neg h, natToHexAux_foldl n 0]
  simp

/-- `int(hexline, 16)` inverts the writer's `'{:x}'.format` followed by CRLF. -/
theorem pyIntHex_natToHex (n : Nat) :
    pyIntHex (natToHex n ++ [13, 10]) = some (n : Int) := by
  by_cases h0 : n = 0
  · subst h0
    decide
  · have hdig := natToHex_digits n
    have hnn := natToHex_ne_nil n
    obtain ⟨c0, t, hct⟩ : ∃ c0 t, natToHex n = c0 :: t := by
      cases hc : natToHex n with
      | nil => exact absurd hc hnn
      | cons a b => exact ⟨a, b, rfl⟩
    obtain ⟨d0, hd0lt, hd0⟩ := hdig c0 (by rw [hct]; simp)
    have hnows : ∀ c ∈ natToHex n, isBWs c = false := by
      intro c hc
      obtain ⟨d, hdlt, rfl⟩ := hdig c hc
      exact hexDigit_not_bws d hdlt
    have hstrip : stripP isBWs (natToHex n ++ [13, 10]) = natToHex n := by
      unfold stripP lstripP
      have hdw : (natToHex n ++ [13, 10]).dropWhile isBWs = natToHex n ++ [13, 10] := by
        rw [hct, List.cons_append]
        exact List.dropWhile_cons_of_neg
          (by simp [hnows c0 (by rw [hct]; simp)])
      rw [hdw, rstripP_append, if_pos (by decide)]
      exact rstripP_nop _ _ hnows
    simp only [pyIntHex]
    rw [hstrip, hct]
    have hb0 : (48 ≤ c0 ∧ c0 ≤ 57) ∨ (97 ≤ c0 ∧ c0 ≤ 102) :=
      hd0 ▸ hexDigit_range d0 hd0lt
    have h43 : ¬ ((c0 :: t).head? = some 43) := by
      simp only [List.head?_cons, Option.some.injEq]
      omega
    have h45 : ¬ ((c0 :: t).head? = some 45) := by
      simp only [List.head?_cons, Option.some.injEq]
      omega
    rw [if_neg h43, if_neg h45]
    have hpfx : ¬ (((c0 :: t).head? = some 48) ∧
        (((c0 :: t).tail.head? = some 120) ∨ ((c0 :: t).tail.head? = some 88))) := by
      rintro ⟨-, h2⟩
      cases t with
      | nil => simp at h2
      | cons c1 t' =>
        obtain ⟨d1, hd1lt, hd1⟩ := hdig c1 (by rw [hct]; simp)
        have hb1 : (48 ≤ c1 ∧ c1 ≤ 57) ∨ (97 ≤ c1 ∧ c1 ≤ 102) :=
          hd1 ▸ hexDigit_range d1 hd1lt
        simp only [List.tail_cons, List.head?_cons, Option.some.injEq] at h2
        omega
    unfold parseHexPfx
    rw [if_neg hpfx]
    have hval : hexVal? c0 = some d0 := by rw [hd0]; exact hexVal?_hexDigit d0 hd0lt
    simp only [parseHexBody, false_and, if_false, hval]
    have htd : ∀ x ∈ t, (hexVal? x).isSome := by
      intro x hx
      obtain ⟨d, hdlt, rfl⟩ := hdig x (by rw [hct]; exact List.mem_cons_of_mem _ hx)
      rw [hexVal?_hexDigit d hdlt]
      rfl
    rw [parseHexD_digits t d0 htd]
    have hfold := natToHex_foldl_zero n h0
    rw [hct] at hfold
    simp only [List.foldl_cons, hval, Option.getD_some, Nat.zero_mul,
      Nat.zero_add] at hfold
    rw [hfold]
    rfl

theorem findByteIdx_none (tg : Nat) (l : List Nat) (h : ∀ c ∈ l, c ≠ tg) :
    findByteIdx tg l = none := by
  induction l with
  | nil => rfl
  | cons c r ih =>
    simp only [findByteIdx]
    rw [if_neg (h c (by simp)), ih (fun x hx => h x (List.mem_cons_of_mem c hx))]
    rfl

theorem readexactly_prefix (l r : List Nat) :
    readexactly l.length (l ++ r) = .ok (l, r) := by
  unfold readexactly
  rw [if_pos (by simp)]
  rw [List.take_left, List.drop_left]

/-- One ChunkedReader.read call consumes exactly one written chunk. -/
theorem chunkedRead_chunk (c rest : List Nat) (hc : c ≠ []) :
    chunkedRead (writeChunked c ++ rest) = .ok (c, rest) := by
  have hassoc : writeChunked c ++ rest =
      (natToHex c.length ++ [13]) ++ 10 :: (c ++ ([13, 10] ++ rest)) := by
    unfold writeChunked
    rw [if_neg hc]
    simp
  rw [hassoc]
  have hno10 : (10 : Nat) ∉ natToHex c.length ++ [13] := by
    intro hmem
    rcases List.mem_append.mp hmem with h1 | h1
    · obtain ⟨d, hdlt, hdeq⟩ := natToHex_digits _ 10 h1
      rcases hexDigit_range d hdlt with ⟨a1, a2⟩ | ⟨a1, a2⟩ <;> omega
    · simp at h1
  have hline : (natToHex c.length ++ [13]) ++ [10] = natToHex c.length ++ [13, 10] := by
    simp
  have hsemi : findByteIdx 59 (natToHex c.length ++ [13, 10]) = none := by
    apply findByteIdx_none
    intro x hx
    rcases List.mem_append.mp hx with h1 | h1
    · obtain ⟨d, hdlt, rfl⟩ := natToHex_digits _ x h1
      rcases hexDigit_range d hdlt with ⟨a1, a2⟩ | ⟨a1, a2⟩ <;> omega
    · simp at h1
      rcases h1 with rfl | rfl <;> decide
  unfold chunkedRead readNextChunkSize
  rw [readline_append _ _ hno10]
  have hlen0 : ¬ ((c.length : Int) = 0) := by
    simp [List.length_eq_zero, hc]
  have hneg : ¬ ((c.length : Int) < 0) := by simp
  have htn : ((c.length : Int)).toNat = c.length := by simp
  have hre2 : readexactly 2 ([13, 10] ++ rest) = .ok ([13, 10], rest) := by
    have h2 := readexactly_prefix [13, 10] rest
    simpa using h2
  simp only [hline, hsemi, pyIntHex_natToHex c.length, hlen0, hneg, if_false,
    htn, readexactly_prefix c ([13, 10] ++ rest), hre2]

theorem readPayload_writeChunkedAll (cs : List (List Nat)) (h : ∀ c ∈ cs, c ≠ []) :
    readPayloadChunked (cs.length + 1) (writeChunkedAll cs) = .ok cs.flatten := by
  induction cs with
  | nil => decide
  | cons c t ih =>
    have hc : c ≠ [] := h c (by simp)
    have hw : writeChunkedAll (c :: t) = writeChunked c ++ writeChunkedAll t := by
      simp [writeChunkedAll]
    rw [hw]
    have hlen : (c :: t).length + 1 = (t.length + 1) + 1 := by simp
    rw [hlen]
    conv_lhs => rw [readPayloadChunked]
    rw [chunkedRead_chunk c _ hc]
    simp only [hc, if_false, ih (fun x hx => h x (List.mem_cons_of_mem c hx)),
      List.flatten_cons]

/-- C1: chunked framing round-trip. Writing byte chunks c1..cn with
`write_chunked` followed by `write_chunked_eof` and reading the stream back
with `read_payload` over a `ChunkedReader` yields the concatenation
c1 ++ ... ++ cn; in particular `4\r\ndata\r\n4\r\nline\r\n0\r\n\r\n` yields
b"dataline". -/
theorem chunked_framing_round_trip :
    (∀ cs : List (List Nat), (∀ c ∈ cs, c ≠ []) →
        readPayloadChunked (cs.length + 1) (writeChunkedAll cs) = .ok cs.flatten) ∧
    readPayloadChunked 3 (strBytes "4\r\ndata\r\n4\r\nline\r\n0\r\n\r\n") =
      .ok (strBytes "dataline") := by
  refine ⟨readPayload_writeChunkedAll, by decide⟩

theorem chunked_framing_round_trip_witness :
    readPayloadChunked 3 (writeChunkedAll [strBytes "data", strBytes "line"]) =
      .ok (strBytes "dataline") := by
  have h := chunked_framing_round_trip.1 [strBytes "data", strBytes "line"]
    (by decide)
  exact h.trans (by decide)

/-! # C5 / C7 / C8 - header parsing lemmas -/

/-- A header line `a:bbb...b` (k value bytes) terminated by CRLF. -/
def lineA (k : Nat) : List Nat := [97, 58] ++ List.replicate k 98 ++ [13, 10]

theorem lineA_length (k : Nat) : (lineA k).length = k + 4 := by
  simp [lineA]

theorem readline_lineA (k : Nat) (rest : List Nat) :
    readline (lineA k ++ rest) = (lineA k, rest) := by
  have hassoc : lineA k ++ rest =
      ([97, 58] ++ List.replicate k 98 ++ [13]) ++ 10 :: rest := by
    simp [lineA]
  have h10 : (10 : Nat) ∉ [97, 58] ++ List.replicate k 98 ++ [13] := by
    intro hmem
    rcases List.mem_append.mp hmem with h1 | h1
    · rcases List.mem_append.mp h1 with h2 | h2
      · simp at h2
      · exact absurd (List.eq_of_mem_replicate h2) (by decide)
    · simp at h1
  rw [hassoc, readline_append _ _ h10]
  simp [lineA]

theorem rstrip_value_lineA (m : Nat) :
    rstripP isBWs (List.replicate m 98 ++ [13, 10]) = List.replicate m 98 := by
  rw [rstripP_append, if_pos (by decide)]
  exact rstripP_nop _ _ (fun c hc => by
    rw [List.eq_of_mem_replicate hc]
    decide)

theorem parse_lineA (k : Nat) :
    parseHeaderStart (lineA (k + 1)) =
      .ok ([65], List.replicate (k + 1) 98 ++ [13, 10]) := by
  have hfind : findByteIdx 58 (lineA (k + 1)) = some 1 := by
    simp [lineA, findByteIdx]
  simp only [parseHeaderStart, hfind]
  have htake : (lineA (k + 1)).take 1 = [97] := by simp [lineA]
  have hdrop : (lineA (k + 1)).drop 2 = List.replicate (k + 1) 98 ++ [13, 10] := by
    simp [lineA]
  rw [htake, hdrop]
  have hlstrip : lstripP isBWs (List.replicate (k + 1) 98 ++ [13, 10]) =
      List.replicate (k + 1) 98 ++ [13, 10] := by
    unfold lstripP
    rw [List.replicate_succ, List.cons_append]
    exact List.dropWhile_cons_of_neg (by decide)
  rw [hlstrip]
  rw [(by decide : (rstripP isSpTab [97]).map byteUpper = [65])]
  rw [if_neg (by decide : ¬ (hdrSearch [65] = true))]
  rw [(by decide : stripP isBWs [65] = [65])]

theorem isCont_lineA (k : Nat) : isCont (lineA k) = false := by
  simp [isCont, lineA]

theorem lineA_ne_term (k : Nat) : ¬ (lineA k = [13, 10] ∨ lineA k = [10]) := by
  rintro (h | h) <;>
    · have := congrArg List.length h
      rw [lineA_length] at this
      simp at this

/-- The loop ends at a CRLF line, returning the accumulated headers. -/
theorem readHdrLoop_term (fuel size : Nat) (acc : List (List Nat × List Nat))
    (s : List Nat) :
    readHdrLoop (fuel + 1) size acc [13, 10] s = .ok acc := by
  conv_lhs => rw [readHdrLoop]
  rw [if_pos (Or.inl rfl)]

/-- One loop iteration for a header line with no continuation that passes
both size caps. -/
theorem readHdrLoop_step (fuel size : Nat) (acc : List (List Nat × List Nat))
    (line s : List Nat) (nm v0 : List Nat)
    (hne : ¬ (line = [13, 10] ∨ line = [10]))
    (hparse : parseHeaderStart line = .ok (nm, v0))
    (hcont : isCont (readline s).1 = false)
    (hfld : ¬ (MAX_HEADERFIELD_SIZE < line.length))
    (htot : ¬ (MAX_HEADERS ≤ size + line.length)) :
    readHdrLoop (fuel + 1) size acc line s =
      readHdrLoop fuel (size + line.length)
        (acc ++ [(nm, rstripP isBWs v0)]) (readline s).1 (readline s).2 := by
  conv_lhs => rw [readHdrLoop]
  rw [if_neg hne, hparse]
  simp only [hcont, Bool.false_eq_true, if_false, hfld, htot, List.flatten_nil,
    List.append_nil]

/-- One loop iteration for an over-long header line with no continuation. -/
theorem readHdrLoop_step_fieldlong (fuel size : Nat)
    (acc : List (List Nat × List Nat)) (line s : List Nat) (nm v0 : List Nat)
    (hne : ¬ (line = [13, 10] ∨ line = [10]))
    (hparse : parseHeaderStart line = .ok (nm, v0))
    (hcont : isCont (readline s).1 = false)
    (hfld : MAX_HEADERFIELD_SIZE < line.length) :
    readHdrLoop (fuel + 1) size acc line s = .error .lineTooLongField := by
  conv_lhs => rw [readHdrLoop]
  rw [if_neg hne, hparse]
  simp only [hcont, Bool.false_eq_true, if_false, hfld, if_true]

/-- One loop iteration hitting the total-size cap (`size >= MAX_HEADERS`). -/
theorem readHdrLoop_step_totallong (fuel size : Nat)
    (acc : List (List Nat × List Nat)) (line s : List Nat) (nm v0 : List Nat)
    (hne : ¬ (line = [13, 10] ∨ line = [10]))
    (hparse : parseHeaderStart line = .ok (nm, v0))
    (hcont : isCont (readline s).1 = false)
    (hfld : ¬ (MAX_HEADERFIELD_SIZE < line.length))
    (htot : MAX_HEADERS ≤ size + line.length) :
    readHdrLoop (fuel + 1) size acc line s = .error .lineTooLongTotal := by
  conv_lhs => rw [readHdrLoop]
  rw [if_neg hne, hparse]
  simp only [hcont, Bool.false_eq_true, if_false, hfld, htot, if_true]

/-- Processing one `lineA (k+1)` field within the caps. -/
theorem readHdrLoop_lineA (fuel size : Nat) (acc : List (List Nat × List Nat))
    (k : Nat) (rest : List Nat)
    (hcont : isCont (readline rest).1 = false)
    (hfld : ¬ (MAX_HEADERFIELD_SIZE < k + 5))
    (htot : ¬ (MAX_HEADERS ≤ size + (k + 5))) :
    readHdrLoop (fuel + 1) size acc (lineA (k + 1)) rest =
      readHdrLoop fuel (size + (k + 5))
        (acc ++ [([65], List.replicate (k + 1) 98)])
        (readline rest).1 (readline rest).2 := by
  have hlen : (lineA (k + 1)).length = k + 5 := by rw [lineA_length]
  rw [readHdrLoop_step _ _ _ _ _ _ _ (lineA_ne_term _) (parse_lineA k) hcont
    (by rw [hlen]; exact hfld) (by rw [hlen]; exact htot)]
  rw [rstrip_value_lineA, hlen]

/-- Processing one 8190-byte `lineA 8186` field. -/
theorem readHdrLoop_field8190 (fuel size : Nat) (acc : List (List Nat × List Nat))
    (rest : List Nat)
    (hcont : isCont (readline rest).1 = false)
    (htot : ¬ (MAX_HEADERS ≤ size + 8190)) :
    readHdrLoop (fuel + 1) size acc (lineA 8186) rest =
      readHdrLoop fuel (size + 8190)
        (acc ++ [([65], List.replicate 8186 98)])
        (readline rest).1 (readline rest).2 := by
  have h := readHdrLoop_lineA fuel size acc 8185 rest hcont
    (by norm_num [MAX_HEADERFIELD_SIZE]) (by norm_num; omega)
  norm_num at h
  exact h

theorem rstrip_cont_value (a b : Nat) (hb : b ≠ 0) :
    rstripP isBWs ((List.replicate a 98 ++ [13, 10]) ++
        ([32] ++ List.replicate b 98 ++ [13, 10])) =
      List.replicate a 98 ++ [13, 10, 32] ++ List.replicate b 98 := by
  have h1 : (List.replicate a 98 ++ [13, 10]) ++
        ([32] ++ List.replicate b 98 ++ [13, 10]) =
      (List.replicate a 98 ++ [13, 10, 32] ++ List.replicate b 98) ++ [13, 10] := by
    simp
  rw [h1, rstripP_append, if_pos (by decide), rstripP_append]
  have h2 : rstripP isBWs (List.replicate b 98) = List.replicate b 98 :=
    rstripP_nop _ _ (fun c hc => by rw [List.eq_of_mem_replicate hc]; decide)
  rw [h2, if_neg (by simpa using hb)]

theorem readline_cont (k : Nat) (rest : List Nat) :
    readline (([32] ++ List.replicate k 98 ++ [13, 10]) ++ rest) =
      ([32] ++ List.replicate k 98 ++ [13, 10], rest) := by
  have hassoc : ([32] ++ List.replicate k 98 ++ [13, 10]) ++ rest =
      ([32] ++ List.replicate k 98 ++ [13]) ++ 10 :: rest := by simp
  have h10 : (10 : Nat) ∉ [32] ++ List.replicate k 98 ++ [13] := by
    intro hm
    rcases List.mem_append.mp hm with h1 | h1
    · rcases List.mem_append.mp h1 with h2 | h2
      · simp at h2
      · exact absurd (List.eq_of_mem_replicate h2) (by decide)
    · simp at h1
  rw [hassoc, readline_append _ _ h10]
  simp

theorem isCont_cont (k : Nat) :
    isCont ([32] ++ List.replicate k 98 ++ [13, 10]) = true := by
  simp [isCont]

theorem contLine_length (k : Nat) :
    ([32] ++ List.replicate k 98 ++ [13, 10]).length = k + 3 := by
  rw [List.length_append, List.length_append, List.length_replicate]
  simp only [List.length_cons, List.length_nil]
  omega

/-- `parseHeaderStart` on a `lineA m` field line, m positive. -/
theorem parse_lineA_pos (m : Nat) (hm : m ≠ 0) :
    parseHeaderStart (lineA m) =
      .ok ([65], List.replicate m 98 ++ [13, 10]) := by
  obtain ⟨k, rfl⟩ : ∃ k, m = k + 1 := ⟨m - 1, by omega⟩
  exact parse_lineA k

/-- C7: a single header field of exactly `MAX_HEADERFIELD_SIZE` (8190) bytes
is accepted, both as one line and split across a continuation line; one byte
more raises LineTooLong (the per-field cap), in both shapes. -/
theorem header_field_cap :
    readHeaders (lineA 8186 ++ [13, 10]) = .ok [([65], List.replicate 8186 98)] ∧
    readHeaders (lineA 8187 ++ [13, 10]) = .error .lineTooLongField ∧
    readHeaders (lineA 3996 ++ (([32] ++ List.replicate 4187 98 ++ [13, 10]) ++ [13, 10])) =
      .ok [([65], List.replicate 3996 98 ++ [13, 10, 32] ++ List.replicate 4187 98)] ∧
    readHeaders (lineA 3996 ++ (([32] ++ List.replicate 4188 98 ++ [13, 10]) ++ [13, 10])) =
      .error .lineTooLongField := by
  refine ⟨?_, ?_, ?_, ?_⟩
  · simp only [readHeaders, readline_lineA]
    rw [readHdrLoop_field8190 _ 0 [] [13, 10] (by decide) (by norm_num [MAX_HEADERS])]
    rw [(by decide : readline [13, 10] = ([13, 10], ([] : List Nat)))]
    have hf : (lineA 8186 ++ [13, 10]).length = 8191 + 1 := by
      rw [List.length_append, lineA_length]
      rfl
    rw [hf, readHdrLoop_term, List.nil_append]
  · simp only [readHeaders, readline_lineA]
    rw [readHdrLoop_step_fieldlong _ 0 [] _ _ _ _ (lineA_ne_term _)
      (parse_lineA_pos 8187 (by decide)) (by decide)
      (by rw [lineA_length]; norm_num [MAX_HEADERFIELD_SIZE])]
  · simp only [readHeaders, readline_lineA]
    conv_lhs => rw [readHdrLoop]
    rw [if_neg (lineA_ne_term 3996), parse_lineA_pos 3996 (by decide)]
    simp only [readline_cont, isCont_cont, if_true]
    rw [show (([13, 10] : List Nat).length + 1) = 2 + 1 from rfl]
    have hrc : readCont (2 + 1) (lineA 3996).length []
        ([32] ++ List.replicate 4187 98 ++ [13, 10]) [13, 10] =
        .ok ((lineA 3996).length + ([32] ++ List.replicate 4187 98 ++ [13, 10]).length,
          [[32] ++ List.replicate 4187 98 ++ [13, 10]], [13, 10], []) := by
      conv_lhs => rw [readCont]
      rw [if_pos (isCont_cont 4187)]
      rw [if_neg (by rw [lineA_length, contLine_length]; norm_num [MAX_HEADERFIELD_SIZE])]
      rw [(by decide : readline [13, 10] = ([13, 10], ([] : List Nat)))]
      conv_lhs => rw [readCont]
      rw [if_neg (by decide : ¬ (isCont [13, 10] = true))]
      rfl
    simp only [hrc]
    rw [if_neg (by rw [lineA_length, contLine_length]; norm_num [MAX_HEADERS])]
    simp only [List.flatten_cons, List.flatten_nil, List.append_nil]
    rw [rstrip_cont_value 3996 4187 (by decide)]
    have hf : (lineA 3996 ++ (([32] ++ List.replicate 4187 98 ++ [13, 10]) ++
        [13, 10])).length = 8191 + 1 := by
      rw [List.length_append, lineA_length, List.length_append, contLine_length]
      rfl
    rw [hf, readHdrLoop_term, List.nil_append]
  · simp only [readHeaders, readline_lineA]
    conv_lhs => rw [readHdrLoop]
    rw [if_neg (lineA_ne_term 3996), parse_lineA_pos 3996 (by decide)]
    simp only [readline_cont, isCont_cont, if_true]
    rw [show (([13, 10] : List Nat).length + 1) = 2 + 1 from rfl]
    have hrc : readCont (2 + 1) (lineA 3996).length []
        ([32] ++ List.replicate 4188 98 ++ [13, 10]) [13, 10] =
        .error .lineTooLongField := by
      conv_lhs => rw [readCont]
      rw [if_pos (isCont_cont 4188)]
      rw [if_pos (by rw [lineA_length, contLine_length]; norm_num [MAX_HEADERFIELD_SIZE])]
    simp only [hrc]


/-- The header line "abc:d" ++ CRLF (7 bytes). -/
def lineB7 : List Nat := [97, 98, 99, 58, 100, 13, 10]

/-- The header line "abcd:e" ++ CRLF (8 bytes). -/
def lineB8 : List Nat := [97, 98, 99, 100, 58, 101, 13, 10]

/-- A header block of four 8190-byte fields and one 7-byte field
(total 32767 bytes) is accepted. -/
theorem readHeaders_total_32767 :
    readHeaders (lineA 8186 ++ (lineA 8186 ++ (lineA 8186 ++ (lineA 8186 ++
        (lineB7 ++ [13, 10]))))) =
      .ok [([65], List.replicate 8186 98), ([65], List.replicate 8186 98),
           ([65], List.replicate 8186 98), ([65], List.replicate 8186 98),
           ([65, 66, 67], [100])] := by
  have hcA : ∀ r : List Nat, isCont (readline (lineA 8186 ++ r)).1 = false := by
    intro r
    simp only [readline_lineA]
    exact isCont_lineA 8186
  have hcB : isCont (readline (lineB7 ++ [13, 10])).1 = false := by decide
  have e1 : (lineA 8186 ++ (lineA 8186 ++ (lineA 8186 ++ (lineA 8186 ++
      (lineB7 ++ [13, 10]))))).length = 32768 + 1 := by
    simp only [List.length_append, lineA_length]
    rfl
  simp only [readHeaders, readline_lineA]
  rw [readHdrLoop_field8190 _ 0 [] _ (hcA _) (by norm_num [MAX_HEADERS])]
  simp only [readline_lineA]
  rw [e1, readHdrLoop_field8190 _ _ _ _ (hcA _) (by norm_num [MAX_HEADERS])]
  simp only [readline_lineA]
  rw [(by norm_num : (32768 : Nat) = 32767 + 1),
    readHdrLoop_field8190 _ _ _ _ (hcA _) (by norm_num [MAX_HEADERS])]
  simp only [readline_lineA]
  rw [(by norm_num : (32767 : Nat) = 32766 + 1),
    readHdrLoop_field8190 _ _ _ _ hcB (by norm_num [MAX_HEADERS])]
  rw [(by decide : readline (lineB7 ++ [13, 10]) = (lineB7, [13, 10]))]
  rw [(by norm_num : (32766 : Nat) = 32765 + 1),
    readHdrLoop_step _ _ _ _ _ _ _ (by decide)
      (by decide : parseHeaderStart lineB7 = .ok ([65, 66, 67], [100, 13, 10]))
      (by decide) (by decide) (by decide)]
  rw [(by decide : readline [13, 10] = ([13, 10], ([] : List Nat)))]
  rw [(by norm_num : (32765 : Nat) = 32764 + 1), readHdrLoop_term]
  rw [(by decide : rstripP isBWs [100, 13, 10] = [100])]
  simp only [List.nil_append, List.singleton_append, List.cons_append]

/-- The same block with the last field one byte longer (total exactly 32768
bytes) is rejected by the `size >= MAX_HEADERS` check. -/
theorem readHeaders_total_32768 :
    readHeaders (lineA 8186 ++ (lineA 8186 ++ (lineA 8186 ++ (lineA 8186 ++
        (lineB8 ++ [13, 10]))))) = .error .lineTooLongTotal := by
  have hcA : ∀ r : List Nat, isCont (readline (lineA 8186 ++ r)).1 = false := by
    intro r
    simp only [readline_lineA]
    exact isCont_lineA 8186
  have hcB : isCont (readline (lineB8 ++ [13, 10])).1 = false := by decide
  have e1 : (lineA 8186 ++ (lineA 8186 ++ (lineA 8186 ++ (lineA 8186 ++
      (lineB8 ++ [13, 10]))))).length = 32769 + 1 := by
    simp only [List.length_append, lineA_length]
    rfl
  simp only [readHeaders, readline_lineA]
  rw [readHdrLoop_field8190 _ 0 [] _ (hcA _) (by norm_num [MAX_HEADERS])]
  simp only [readline_lineA]
  rw [e1, readHdrLoop_field8190 _ _ _ _ (hcA _) (by norm_num [MAX_HEADERS])]
  simp only [readline_lineA]
  rw [(by norm_num : (32769 : Nat) = 32768 + 1),
    readHdrLoop_field8190 _ _ _ _ (hcA _) (by norm_num [MAX_HEADERS])]
  simp only [readline_lineA]
  rw [(by norm_num : (32768 : Nat) = 32767 + 1),
    readHdrLoop_field8190 _ _ _ _ hcB (by norm_num [MAX_HEADERS])]
  rw [(by decide : readline (lineB8 ++ [13, 10]) = (lineB8, [13, 10]))]
  rw [(by norm_num : (32767 : Nat) = 32766 + 1),
    readHdrLoop_step_totallong _ _ _ _ _ _ _ (by decide)
      (by decide : parseHeaderStart lineB8 = .ok ([65, 66, 67, 68], [101, 13, 10]))
      (by decide) (by decide) (by decide)]

/-- C5 counterexample: a header block whose accumulated byte size is exactly
MAX_HEADERS = 32768 bytes (four 8190-byte fields plus one 8-byte field) is
REJECTED with LineTooLong, because the code checks `size >= MAX_HEADERS`;
the claim says such a block is accepted. -/
theorem header_total_cap_counterexample :
    readHeaders (lineA 8186 ++ (lineA 8186 ++ (lineA 8186 ++ (lineA 8186 ++
        (lineB8 ++ [13, 10]))))) = .error .lineTooLongTotal ∧
    (lineA 8186).length * 4 + lineB8.length = 32768 := by
  refine ⟨readHeaders_total_32768, ?_⟩
  rw [lineA_length]
  rfl

/-- C5 (amended): the total-size cap fires as soon as the accumulated header
bytes reach MAX_HEADERS = 32768 (`size >= MAX_HEADERS`): a block of exactly
32767 bytes is accepted and a block of exactly 32768 bytes raises
LineTooLong. -/
theorem header_total_cap :
    (readHeaders (lineA 8186 ++ (lineA 8186 ++ (lineA 8186 ++ (lineA 8186 ++
        (lineB7 ++ [13, 10]))))) =
      .ok [([65], List.replicate 8186 98), ([65], List.replicate 8186 98),
           ([65], List.replicate 8186 98), ([65], List.replicate 8186 98),
           ([65, 66, 67], [100])] ∧
      (lineA 8186).length * 4 + lineB7.length = 32767) ∧
    (readHeaders (lineA 8186 ++ (lineA 8186 ++ (lineA 8186 ++ (lineA 8186 ++
        (lineB8 ++ [13, 10]))))) = .error .lineTooLongTotal ∧
      (lineA 8186).length * 4 + lineB8.length = 32768) := by
  refine ⟨⟨readHeaders_total_32767, ?_⟩, ⟨readHeaders_total_32768, ?_⟩⟩ <;>
    · rw [lineA_length]
      rfl

/-! # C8 - header-name canonicalization -/

theorem isBWs_imp_forbidden (b : Nat) (h : isBWs b = true) :
    isForbiddenHdr b = true := by
  unfold isBWs at h
  unfold isForbiddenHdr
  simp only [Bool.or_eq_true, decide_eq_true_eq] at h ⊢
  omega

theorem forbidden_not_lower (c : Nat) (h : isForbiddenHdr c = true) :
    ¬ (97 ≤ c ∧ c ≤ 122) := by
  unfold isForbiddenHdr at h
  simp only [Bool.or_eq_true, decide_eq_true_eq] at h
  omega

theorem byteUpper_forbidden (c : Nat) (h : isForbiddenHdr c = true) :
    byteUpper c = c := by
  unfold byteUpper
  rw [if_neg (forbidden_not_lower c h)]

/-- C8 counterexample: the line `Host : x`, whose name part `Host ` (the bytes
before the colon) contains the forbidden byte 0x20 (SP), is ACCEPTED by
read_headers with name `HOST` - trailing SP/TAB is stripped before the HDRRE
check runs - refuting "a name containing a byte of the forbidden set raises
the invalid-header-name error". -/
theorem header_name_counterexample :
    readHeaders (strBytes "Host : x\r\n\r\n") = .ok [(strBytes "HOST", [120])] ∧
    32 ∈ strBytes "Host " ∧ isForbiddenHdr 32 = true := by decide

/-- C8 (amended): for every accepted header line the returned name is the
input name (the bytes before the first colon) with trailing and leading
SP/TAB stripped and uppercased; a line with no colon raises the
invalid-header error; and a name whose TRAILING-SP/TAB-stripped form still
contains a forbidden byte raises the invalid-header-name error (forbidden
bytes that are trailing SP/TAB are stripped first and do not reject). -/
theorem header_name_canonicalization :
    (∀ line i nm v, findByteIdx 58 line = some i →
        parseHeaderStart line = .ok (nm, v) →
        nm = (stripP isSpTab (line.take i)).map byteUpper) ∧
    (∀ line, findByteIdx 58 line = none →
        parseHeaderStart line = .error .invalidHeader) ∧
    (∀ line i, findByteIdx 58 line = some i →
        (∃ c ∈ rstripP isSpTab (line.take i), isForbiddenHdr c = true) →
        parseHeaderStart line = .error .invalidHeaderName) := by
  refine ⟨?_, ?_, ?_⟩
  · intro line i nm v hfind hok
    simp only [parseHeaderStart, hfind] at hok
    by_cases hs : hdrSearch ((rstripP isSpTab (line.take i)).map byteUpper) = true
    · rw [if_pos hs] at hok
      exact absurd hok (by simp)
    · rw [if_neg hs] at hok
      simp only [Except.ok.injEq, Prod.mk.injEq] at hok
      obtain ⟨hnm, -⟩ := hok
      subst hnm
      have hall : ∀ b ∈ (rstripP isSpTab (line.take i)).map byteUpper,
          isForbiddenHdr b = false := by
        intro b hb
        by_contra hbc
        exact hs (by
          simp only [hdrSearch, List.any_eq_true]
          exact ⟨b, hb, by simpa using hbc⟩)
      have hnbws : ∀ b ∈ (rstripP isSpTab (line.take i)).map byteUpper,
          isBWs b = false := by
        intro b hb
        by_contra hbc
        have := isBWs_imp_forbidden b (by simpa using hbc)
        rw [hall b hb] at this
        exact Bool.noConfusion this
      have hstripid :
          stripP isBWs ((rstripP isSpTab (line.take i)).map byteUpper) =
            (rstripP isSpTab (line.take i)).map byteUpper := by
        unfold stripP lstripP
        rw [dropWhile_nop _ _ hnbws]
        exact rstripP_nop _ _ hnbws
      rw [hstripid]
      have hdw : (rstripP isSpTab (line.take i)).dropWhile isSpTab =
          rstripP isSpTab (line.take i) := by
        cases hn : rstripP isSpTab (line.take i) with
        | nil => rfl
        | cons c t =>
          have hcmem : byteUpper c ∈ (rstripP isSpTab (line.take i)).map byteUpper := by
            rw [hn]
            exact List.mem_map_of_mem _ (by simp)
          by_cases hsp : isSpTab c = true
          · exfalso
            have hcu : byteUpper c = c := by
              unfold isSpTab at hsp
              simp only [Bool.or_eq_true, decide_eq_true_eq] at hsp
              unfold byteUpper
              rw [if_neg (by omega)]
            have hforb : isForbiddenHdr (byteUpper c) = true := by
              rw [hcu]
              unfold isSpTab at hsp
              simp only [Bool.or_eq_true, decide_eq_true_eq] at hsp
              unfold isForbiddenHdr
              simp only [Bool.or_eq_true, decide_eq_true_eq]
              omega
            rw [hall _ hcmem] at hforb
            exact Bool.noConfusion hforb
          · exact List.dropWhile_cons_of_neg (by simpa using hsp)
      unfold stripP lstripP
      rw [rstripP_dropWhile_comm, hdw]
  · intro line hfind
    simp only [parseHeaderStart, hfind]
  · intro line i hfind hforb
    obtain ⟨c, hcmem, hcf⟩ := hforb
    simp only [parseHeaderStart, hfind]
    rw [if_pos ?_]
    simp only [hdrSearch, List.any_eq_true]
    refine ⟨byteUpper c, List.mem_map_of_mem _ hcmem, ?_⟩
    rw [byteUpper_forbidden c hcf]
    exact hcf

theorem header_name_canonicalization_witness :
    strBytes "HOST" =
      (stripP isSpTab ((strBytes "Host: x").take 4)).map byteUpper :=
  header_name_canonicalization.1 (strBytes "Host: x") 4 (strBytes "HOST") [120]
    (by decide) (by decide)

/-! # C6 - status-code bounds in read_response_status -/

theorem statusFromParts_bounds (line version status reason : List Nat)
    (v : Nat × Nat) (c : Int) (r : List Nat)
    (h : statusFromParts line version status reason = .ok (v, c, r)) :
    100 ≤ c ∧ c ≤ 999 := by
  simp only [statusFromParts] at h
  split at h
  · simp at h
  · split at h
    · simp at h
    · split at h
      · simp at h
      · simp only [Except.ok.injEq, Prod.mk.injEq] at h
        obtain ⟨-, hc, -⟩ := h
        subst hc
        rename_i hguard
        push_neg at hguard
        omega

/-- C6: any line accepted by `read_response_status` has a code in [100, 999];
100 and 999 are accepted; 99, 1000, a non-integer code and the empty line all
raise `BadStatusLine` carrying the (stripped) input line. -/
theorem status_code_bounds :
    (∀ raw v c r, readResponseStatus raw = .ok (v, c, r) → 100 ≤ c ∧ c ≤ 999) ∧
    readResponseStatus (strBytes "HTTP/1.1 100 x\r\n") = .ok ((1, 1), 100, [120]) ∧
    readResponseStatus (strBytes "HTTP/1.1 999 x\r\n") = .ok ((1, 1), 999, [120]) ∧
    readResponseStatus (strBytes "HTTP/1.1 99 test\r\n") =
      .error (.badStatusLine (strBytes "HTTP/1.1 99 test")) ∧
    readResponseStatus (strBytes "HTTP/1.1 1000 x\r\n") =
      .error (.badStatusLine (strBytes "HTTP/1.1 1000 x")) ∧
    readResponseStatus (strBytes "HTTP/1.1 abc x\r\n") =
      .error (.badStatusLine (strBytes "HTTP/1.1 abc x")) ∧
    readResponseStatus [] = .error (.badStatusLine []) := by
  refine ⟨?_, by decide, by decide, by decide, by decide, by decide, by decide⟩
  intro raw v c r h
  simp only [readResponseStatus] at h
  split at h
  · simp at h
  · split at h <;> exact statusFromParts_bounds _ _ _ _ _ _ _ h

theorem status_code_bounds_witness : (100 : Int) ≤ 100 ∧ (100 : Int) ≤ 999 :=
  status_code_bounds.1 (strBytes "HTTP/1.1 100 x\r\n") (1, 1) 100 [120]
    status_code_bounds.2.1

/-! # C9 - close_after determination in read_message -/

/-- The CONNECTION directive carried by one header value, lowercased. -/
def connDirective (v : List Nat) : Option Bool :=
  if lowerB v = strBytes "close" then some true
  else if lowerB v = strBytes "keep-alive" then some false
  else none

/-- The last CONNECTION directive in the header list, if any (the statement
of the amended claim, written independently of the read_message fold). -/
def lastConnSetting (headers : List (List Nat × List Nat)) : Option Bool :=
  headers.foldl
    (fun acc nv =>
      if nv.1 = strBytes "CONNECTION" then
        match connDirective nv.2 with
        | some b => some b
        | none => acc
      else acc) none

theorem processHeader_closeConn (comp : Bool) (st : MsgParams)
    (nv : List Nat × List Nat) :
    (processHeader comp st nv).closeConn =
      (if nv.1 = strBytes "CONNECTION" then
        match connDirective nv.2 with
        | some b => some b
        | none => st.closeConn
       else st.closeConn) := by
  obtain ⟨nm, val⟩ := nv
  by_cases h4 : nm = strBytes "CONNECTION"
  · subst h4
    have e1 : (strBytes "CONNECTION" = strBytes "CONTENT-LENGTH") = False :=
      eq_false (by decide)
    have e2 : (strBytes "CONNECTION" = strBytes "TRANSFER-ENCODING") = False :=
      eq_false (by decide)
    have e3 : (strBytes "CONNECTION" = strBytes "SEC-WEBSOCKET-KEY1") = False :=
      eq_false (by decide)
    simp only [processHeader, connDirective, e1, e2, e3, if_false,
      eq_self_iff_true, if_true]
    split_ifs <;> rfl
  · simp only [processHeader, connDirective, h4, if_false]
    split_ifs <;> rfl

theorem foldl_closeConn (comp : Bool) (hs : List (List Nat × List Nat)) :
    ∀ st : MsgParams,
      (hs.foldl (processHeader comp) st).closeConn =
        hs.foldl
          (fun acc nv =>
            if nv.1 = strBytes "CONNECTION" then
              match connDirective nv.2 with
              | some b => some b
              | none => acc
            else acc) st.closeConn := by
  induction hs with
  | nil => intro st; rfl
  | cons nv t ih =>
    intro st
    simp only [List.foldl_cons]
    rw [ih, processHeader_closeConn]

/-- C9 (amended): the close flag computed by read_message equals the LAST
CONNECTION directive among the headers when one exists (close - true,
keep-alive - false; later directives overwrite earlier ones), and defaults
to `version <= (1, 0)` when no CONNECTION header carries a directive. -/
theorem close_after_determination (headers : List (List Nat × List Nat))
    (version : Nat × Nat) (compression : Bool) (length : Option Nat) :
    closeAfterOf headers version compression length =
      (lastConnSetting headers).getD (verLe10 version) := by
  unfold closeAfterOf lastConnSetting
  rw [foldl_closeConn]
  have : (initParams length).closeConn = none := by simp [initParams]
  rw [this]
  cases hf :
      headers.foldl
        (fun acc nv =>
          if nv.1 = strBytes "CONNECTION" then
            match connDirective nv.2 with
            | some b => some b
            | none => acc
          else acc) (none : Option Bool) <;> simp

/-- C9 counterexample: with the headers CONNECTION: close followed by
CONNECTION: keep-alive, a CONNECTION header with value close is present, yet
the computed close flag is false (the last directive wins), refuting the
claim "if a CONNECTION header with value close is present the flag is
true". -/
theorem close_after_counterexample :
    closeAfterOf
        [(strBytes "CONNECTION", strBytes "close"),
         (strBytes "CONNECTION", strBytes "keep-alive")] (1, 1) true none = false ∧
    (strBytes "CONNECTION", strBytes "close") ∈
      [(strBytes "CONNECTION", strBytes "close"),
       (strBytes "CONNECTION", strBytes "keep-alive")] := by decide

end Httpclient

namespace Wsproto

/-! # C2 - WebSocket accept-key derivation -/

open Httpclient (strBytes lowerB)

/-- The RFC 6455 section 1.3 example environ: a valid client handshake. -/
def envRFC : Environ :=
  ⟨some (strBytes "websocket"), some (strBytes "Upgrade"),
   some (strBytes "13"), some (strBytes "dGhlIHNhbXBsZSBub25jZQ==")⟩

theorem bad_ne (hdrs : List (List Nat)) :
    (Except.ok BAD_REQUEST : Except Unit (List Nat × List (List Nat))) ≠
      .ok (strBytes "101 Switching Protocols\r\n", hdrs) := by
  intro h
  simp only [Except.ok.injEq, BAD_REQUEST, Prod.mk.injEq] at h
  exact absurd h.1 (by decide)

/-- C2: whenever `serve` answers 101, the fourth response header is
`Sec-WebSocket-Accept: base64(SHA1(key ++ MAGIC))` for the client's key; and
`connect` raises "Invalid challenge response" exactly when the received
`sec-websocket-accept` differs from base64(SHA1(sent_key ++ MAGIC)). -/
theorem ws_accept_key_derivation :
    (∀ env key st hdrs, env.secKey = some key →
        serve env = .ok (st, hdrs) →
        st = strBytes "101 Switching Protocols\r\n" →
        hdrs = [strBytes "Upgrade: websocket\r\n",
                strBytes "Connection: Upgrade\r\n",
                strBytes "Transfer-Encoding: chunked\r\n",
                strBytes "Sec-WebSocket-Accept: " ++ wsAccept key ++ [13, 10]]) ∧
    (∀ key up cn ac, lowerB up = strBytes "websocket" →
        lowerB cn = strBytes "upgrade" → ac ≠ wsAccept key →
        connectCheck key 101 up cn ac =
          .error (strBytes "Handshake error - Invalid challenge response")) ∧
    (∀ key up cn, lowerB up = strBytes "websocket" →
        lowerB cn = strBytes "upgrade" →
        connectCheck key 101 up cn (wsAccept key) = .ok ()) := by
  refine ⟨?_, ?_, ?_⟩
  · intro env key st hdrs hkey hserve hst
    subst hst
    unfold serve at hserve
    rw [hkey] at hserve
    simp only [Option.getD_some] at hserve
    split_ifs at hserve <;> try exact absurd hserve (bad_ne _)
    split at hserve
    · exact Except.noConfusion hserve
    · split_ifs at hserve
      · exact absurd hserve (bad_ne _)
      · exact (congrArg Prod.snd (Except.ok.inj hserve)).symm
  · intro key up cn ac hu hc hne
    unfold connectCheck
    simp [hu, hc, hne]
  · intro key up cn hu hc
    unfold connectCheck
    simp [hu, hc]

theorem ws_accept_key_derivation_witness :
    [strBytes "Upgrade: websocket\r\n", strBytes "Connection: Upgrade\r\n",
     strBytes "Transfer-Encoding: chunked\r\n",
     strBytes "Sec-WebSocket-Accept: s3pPLMBiTxaQ9kYGzzhZRbK+xOo=\r\n"] =
      [strBytes "Upgrade: websocket\r\n", strBytes "Connection: Upgrade\r\n",
       strBytes "Transfer-Encoding: chunked\r\n",
       strBytes "Sec-WebSocket-Accept: " ++
         wsAccept (strBytes "dGhlIHNhbXBsZSBub25jZQ==") ++ [13, 10]] ∧
    connectCheck (strBytes "k") 101 (strBytes "websocket") (strBytes "upgrade") [0] =
      .error (strBytes "Handshake error - Invalid challenge response") := by
  constructor
  · exact ws_accept_key_derivation.1 envRFC (strBytes "dGhlIHNhbXBsZSBub25jZQ==")
      (strBytes "101 Switching Protocols\r\n")
      [strBytes "Upgrade: websocket\r\n", strBytes "Connection: Upgrade\r\n",
       strBytes "Transfer-Encoding: chunked\r\n",
       strBytes "Sec-WebSocket-Accept: s3pPLMBiTxaQ9kYGzzhZRbK+xOo=\r\n"]
      rfl (by decide) rfl
  · exact ws_accept_key_derivation.2.1 (strBytes "k") (strBytes "websocket")
      (strBytes "upgrade") [0] (by decide) (by decide) (by decide)

end Wsproto
